import Mathlib

/-!
Verification of the bulk email sender's send pipeline.

Strings are modelled as `List Char` (`Str`).  JavaScript's
`String.prototype.replaceAll` with a literal pattern is modelled by
`replaceAll` below: it scans left to right, replaces each non-overlapping
occurrence of the pattern and never rescans the replacement text within
the same pass.  The definitions mirror `src/lib/template.ts`,
`src/lib/mailer.ts` and `src/pages/api/send.ts`.
-/

namespace BulkEmail

abbrev Str := List Char

/-- JavaScript whitespace test used by `String.prototype.trim` (the
characters relevant to this development). -/
def isJsWs (c : Char) : Bool :=
  c == ' ' || c == '\t' || c == '\n' || c == '\r' || c == '\x0b' || c == '\x0c' || c == ' '

/-- Model of JavaScript `String.prototype.trim`: drop whitespace from both ends. -/
def jsTrim (s : Str) : Str :=
  ((s.dropWhile isJsWs).reverse.dropWhile isJsWs).reverse

/-- Fuel-indexed worker for `replaceAll`; the fuel is an upper bound on the
length of the string still to scan, so it never runs out. -/
def replaceAllFuel : Nat → Str → Str → Str → Str
  | 0, s, _, _ => s
  | Nat.succ fuel, s, pat, rep =>
    match s with
    | [] => []
    | c :: rest =>
      if !pat.isEmpty && pat.isPrefixOf (c :: rest) then
        rep ++ replaceAllFuel fuel (rest.drop (pat.length - 1)) pat rep
      else
        c :: replaceAllFuel fuel rest pat rep

/-- JavaScript `s.replaceAll(pat, rep)` for a literal (non-regex) pattern. -/
def replaceAll (s pat rep : Str) : Str :=
  replaceAllFuel s.length s pat rep

/-- Whether `pat` occurs as a contiguous substring of `s`. -/
def occursIn (pat : Str) : Str → Bool
  | [] => pat.isEmpty
  | c :: rest => pat.isPrefixOf (c :: rest) || occursIn pat rest

/-- The literal placeholder `{{email}}`. -/
def phEmailS : Str := ("\x7b\x7bemail\x7d\x7d").toList

/-- The literal placeholder `{{firstName}}`. -/
def phFirstNameS : Str := ("\x7b\x7bfirstName\x7d\x7d").toList

/-- The literal placeholder `{{name}}`. -/
def phNameS : Str := ("\x7b\x7bname\x7d\x7d").toList

/-- `recipient.name?.trim() || recipient.email` from `src/lib/template.ts`:
the trimmed display name when non-empty, else the email. -/
def displayName (email : Str) (name : Option Str) : Str :=
  match name with
  | none => email
  | some n => if jsTrim n = [] then email else jsTrim n

/-- `renderRecipientTemplate` from `src/lib/template.ts`: three sequential
`replaceAll` passes, `{{email}}` first, then `{{firstName}}`, then `{{name}}`. -/
def renderRecipientTemplate (template : Str) (email : Str) (name : Option Str) : Str :=
  let firstName := displayName email name
  replaceAll (replaceAll (replaceAll template phEmailS email) phFirstNameS firstName)
    phNameS firstName

def aposChar : Char := '\x27'

/-- `escapeHtml` from `src/lib/mailer.ts`: five sequential `replaceAll`
passes over `& < > " '`, ampersand first. -/
def escapeHtml (value : Str) : Str :=
  replaceAll
    (replaceAll
      (replaceAll
        (replaceAll
          (replaceAll value (['&']) (("&amp;").toList))
          (['<']) (("&lt;").toList))
        (['>']) (("&gt;").toList))
      (['"']) (("&quot;").toList))
    ([aposChar]) (("&#39").toList ++ [aposChar])

/-- JavaScript `a || b` on strings: `b` when `a` is empty, else `a`. -/
def orElseStr (a b : Str) : Str :=
  if a = [] then b else a

section ReplaceAllLemmas

/-- The fuel argument of `replaceAllFuel` is irrelevant once it is at least
the length of the string being scanned. -/
theorem replaceAllFuel_congr (f1 : Nat) :
    ∀ (f2 : Nat) (s pat rep : Str), s.length ≤ f1 → s.length ≤ f2 →
      replaceAllFuel f1 s pat rep = replaceAllFuel f2 s pat rep := by
  induction f1 with
  | zero =>
    intro f2 s pat rep h1 _
    have hs : s = [] := List.length_eq_zero.mp (Nat.le_zero.mp h1)
    subst hs
    cases f2 <;> rfl
  | succ f1 ih =>
    intro f2 s pat rep h1 h2
    cases s with
    | nil => cases f2 <;> rfl
    | cons c rest =>
      cases f2 with
      | zero => exact absurd h2 (by simp)
      | succ f2 =>
        show (if !pat.isEmpty && pat.isPrefixOf (c :: rest) then
                rep ++ replaceAllFuel f1 (rest.drop (pat.length - 1)) pat rep
              else c :: replaceAllFuel f1 rest pat rep)
           = (if !pat.isEmpty && pat.isPrefixOf (c :: rest) then
                rep ++ replaceAllFuel f2 (rest.drop (pat.length - 1)) pat rep
              else c :: replaceAllFuel f2 rest pat rep)
        have hr1 : rest.length ≤ f1 := by
          simpa [Nat.succ_le_succ_iff] using h1
        have hr2 : rest.length ≤ f2 := by
          simpa [Nat.succ_le_succ_iff] using h2
        have hd1 : (rest.drop (pat.length - 1)).length ≤ f1 := by
          calc (rest.drop (pat.length - 1)).length ≤ rest.length := by
                simp [List.length_drop]
            _ ≤ f1 := hr1
        have hd2 : (rest.drop (pat.length - 1)).length ≤ f2 := by
          calc (rest.drop (pat.length - 1)).length ≤ rest.length := by
                simp [List.length_drop]
            _ ≤ f2 := hr2
        rw [ih f2 (rest.drop (pat.length - 1)) pat rep hd1 hd2,
            ih f2 rest pat rep hr1 hr2]

theorem replaceAll_nil (pat rep : Str) : replaceAll [] pat rep = [] := rfl

/-- One-step unfolding of `replaceAll` on a cons cell. -/
theorem replaceAll_cons (c : Char) (rest pat rep : Str) :
    replaceAll (c :: rest) pat rep =
      if !pat.isEmpty && pat.isPrefixOf (c :: rest) then
        rep ++ replaceAll (rest.drop (pat.length - 1)) pat rep
      else
        c :: replaceAll rest pat rep := by
  show replaceAllFuel (rest.length + 1) (c :: rest) pat rep = _
  have hstep : replaceAllFuel (rest.length + 1) (c :: rest) pat rep =
      if !pat.isEmpty && pat.isPrefixOf (c :: rest) then
        rep ++ replaceAllFuel rest.length (rest.drop (pat.length - 1)) pat rep
      else c :: replaceAllFuel rest.length rest pat rep := rfl
  rw [hstep]
  have hd : (rest.drop (pat.length - 1)).length ≤ rest.length := by
    simp [List.length_drop]
  rw [replaceAllFuel_congr rest.length ((rest.drop (pat.length - 1)).length)
      (rest.drop (pat.length - 1)) pat rep hd (le_refl _)]
  rfl

/-- When the pattern does not match at the head, `replaceAll` copies the
head character and continues. -/
theorem replaceAll_skip (c : Char) (rest pat rep : Str)
    (h : pat.isPrefixOf (c :: rest) = false) :
    replaceAll (c :: rest) pat rep = c :: replaceAll rest pat rep := by
  rw [replaceAll_cons]
  simp [h]

/-- When the string starts with the (non-empty) pattern, `replaceAll`
emits the replacement and continues after the matched occurrence. -/
theorem isPrefixOf_self_append (l r : Str) : l.isPrefixOf (l ++ r) = true := by
  induction l with
  | nil => simp [List.isPrefixOf]
  | cons a as ih => simp [List.isPrefixOf, ih]

theorem replaceAll_hit (rest pat rep : Str) (hne : pat ≠ []) :
    replaceAll (pat ++ rest) pat rep = rep ++ replaceAll rest pat rep := by
  cases pat with
  | nil => exact absurd rfl hne
  | cons a as =>
    have hpre : (a :: as).isPrefixOf ((a :: as) ++ rest) = true :=
      isPrefixOf_self_append (a :: as) rest
    rw [List.cons_append, replaceAll_cons]
    have hcond : (!(a :: as).isEmpty && (a :: as).isPrefixOf (a :: (as ++ rest))) = true := by
      simp only [List.cons_append] at hpre
      simp [List.isEmpty, hpre]
    rw [if_pos hcond]
    have hdrop : (as ++ rest).drop ((a :: as).length - 1) = rest := by
      simp [List.drop_left]
    rw [hdrop]

/-- `replaceAll` walks over a block that does not contain the pattern's
first character without changing it. -/
theorem replaceAll_pass_lit (s : Str) (a : Char) (p2 : Str) (X rep : Str)
    (hp : a ∉ s) :
    replaceAll (s ++ X) (a :: p2) rep = s ++ replaceAll X (a :: p2) rep := by
  induction s with
  | nil => simp
  | cons c cs ih =>
    have hac : a ≠ c := fun h => hp (h ▸ List.mem_cons_self c cs)
    have hpre : (a :: p2).isPrefixOf (c :: (cs ++ X)) = false := by
      simp [List.isPrefixOf, hac]
    rw [List.cons_append, replaceAll_skip c (cs ++ X) (a :: p2) rep hpre,
        ih (fun h => hp (List.mem_cons_of_mem c h)), List.cons_append]

/-- If the pattern does not occur in `s`, `replaceAll` is the identity. -/
theorem replaceAll_of_not_occurs (s pat rep : Str) (h : occursIn pat s = false) :
    replaceAll s pat rep = s := by
  induction s with
  | nil => rfl
  | cons c rest ih =>
    have h2 : pat.isPrefixOf (c :: rest) = false ∧ occursIn pat rest = false := by
      simpa [occursIn, Bool.or_eq_false_iff] using h
    rw [replaceAll_skip c rest pat rep h2.1, ih h2.2]

end ReplaceAllLemmas

section SkipTokenLemmas

/-- `replaceAll` walks over a block whose head character matches the
pattern's head nowhere, without changing it (head-characterised variant). -/
theorem replaceAll_pass_lit2 (s X pat rep : Str) (a : Char)
    (hpa : pat.head? = some a) (hp : a ∉ s) :
    replaceAll (s ++ X) pat rep = s ++ replaceAll X pat rep := by
  cases pat with
  | nil => simp at hpa
  | cons b p2 =>
    have hb : b = a := by simpa using hpa
    subst hb
    exact replaceAll_pass_lit s b p2 X rep hp

theorem skip_email_firstName (X rep : Str) :
    replaceAll (phEmailS ++ X) phFirstNameS rep = phEmailS ++ replaceAll X phFirstNameS rep := by
  show replaceAll ('\x7b' :: '\x7b' :: (("email\x7d\x7d").toList ++ X)) phFirstNameS rep
      = '\x7b' :: '\x7b' :: (("email\x7d\x7d").toList ++ replaceAll X phFirstNameS rep)
  rw [replaceAll_skip '\x7b' ('\x7b' :: (("email\x7d\x7d").toList ++ X)) phFirstNameS rep rfl,
      replaceAll_skip '\x7b' (("email\x7d\x7d").toList ++ X) phFirstNameS rep rfl,
      replaceAll_pass_lit2 (("email\x7d\x7d").toList) X phFirstNameS rep '\x7b' rfl (by decide)]

theorem skip_email_name (X rep : Str) :
    replaceAll (phEmailS ++ X) phNameS rep = phEmailS ++ replaceAll X phNameS rep := by
  show replaceAll ('\x7b' :: '\x7b' :: (("email\x7d\x7d").toList ++ X)) phNameS rep
      = '\x7b' :: '\x7b' :: (("email\x7d\x7d").toList ++ replaceAll X phNameS rep)
  rw [replaceAll_skip '\x7b' ('\x7b' :: (("email\x7d\x7d").toList ++ X)) phNameS rep rfl,
      replaceAll_skip '\x7b' (("email\x7d\x7d").toList ++ X) phNameS rep rfl,
      replaceAll_pass_lit2 (("email\x7d\x7d").toList) X phNameS rep '\x7b' rfl (by decide)]

theorem skip_firstName_email (X rep : Str) :
    replaceAll (phFirstNameS ++ X) phEmailS rep
      = phFirstNameS ++ replaceAll X phEmailS rep := by
  show replaceAll ('\x7b' :: '\x7b' :: (("firstName\x7d\x7d").toList ++ X)) phEmailS rep
      = '\x7b' :: '\x7b' :: (("firstName\x7d\x7d").toList ++ replaceAll X phEmailS rep)
  rw [replaceAll_skip '\x7b' ('\x7b' :: (("firstName\x7d\x7d").toList ++ X)) phEmailS rep rfl,
      replaceAll_skip '\x7b' (("firstName\x7d\x7d").toList ++ X) phEmailS rep rfl,
      replaceAll_pass_lit2 (("firstName\x7d\x7d").toList) X phEmailS rep '\x7b' rfl (by decide)]

theorem skip_firstName_name (X rep : Str) :
    replaceAll (phFirstNameS ++ X) phNameS rep
      = phFirstNameS ++ replaceAll X phNameS rep := by
  show replaceAll ('\x7b' :: '\x7b' :: (("firstName\x7d\x7d").toList ++ X)) phNameS rep
      = '\x7b' :: '\x7b' :: (("firstName\x7d\x7d").toList ++ replaceAll X phNameS rep)
  rw [replaceAll_skip '\x7b' ('\x7b' :: (("firstName\x7d\x7d").toList ++ X)) phNameS rep rfl,
      replaceAll_skip '\x7b' (("firstName\x7d\x7d").toList ++ X) phNameS rep rfl,
      replaceAll_pass_lit2 (("firstName\x7d\x7d").toList) X phNameS rep '\x7b' rfl (by decide)]

theorem skip_name_email (X rep : Str) :
    replaceAll (phNameS ++ X) phEmailS rep = phNameS ++ replaceAll X phEmailS rep := by
  show replaceAll ('\x7b' :: '\x7b' :: (("name\x7d\x7d").toList ++ X)) phEmailS rep
      = '\x7b' :: '\x7b' :: (("name\x7d\x7d").toList ++ replaceAll X phEmailS rep)
  rw [replaceAll_skip '\x7b' ('\x7b' :: (("name\x7d\x7d").toList ++ X)) phEmailS rep rfl,
      replaceAll_skip '\x7b' (("name\x7d\x7d").toList ++ X) phEmailS rep rfl,
      replaceAll_pass_lit2 (("name\x7d\x7d").toList) X phEmailS rep '\x7b' rfl (by decide)]

theorem skip_name_firstName (X rep : Str) :
    replaceAll (phNameS ++ X) phFirstNameS rep
      = phNameS ++ replaceAll X phFirstNameS rep := by
  show replaceAll ('\x7b' :: '\x7b' :: (("name\x7d\x7d").toList ++ X)) phFirstNameS rep
      = '\x7b' :: '\x7b' :: (("name\x7d\x7d").toList ++ replaceAll X phFirstNameS rep)
  rw [replaceAll_skip '\x7b' ('\x7b' :: (("name\x7d\x7d").toList ++ X)) phFirstNameS rep rfl,
      replaceAll_skip '\x7b' (("name\x7d\x7d").toList ++ X) phFirstNameS rep rfl,
      replaceAll_pass_lit2 (("name\x7d\x7d").toList) X phFirstNameS rep '\x7b' rfl (by decide)]

end SkipTokenLemmas

section TemplateTokens

/-- A well-formed template part: a literal chunk or one of the three
fixed placeholders. -/
inductive TPart
  | lit (s : Str)
  | phEmail
  | phFirstName
  | phName
deriving DecidableEq, Repr

/-- The textual form of a template part. -/
def TPart.flat : TPart → Str
  | .lit s => s
  | .phEmail => phEmailS
  | .phFirstName => phFirstNameS
  | .phName => phNameS

/-- Concatenate the parts of a template into its textual form. -/
def flattenParts : List TPart → Str
  | [] => []
  | p :: ps => p.flat ++ flattenParts ps

/-- The intended meaning of a template: each placeholder token replaced
by its value, literal chunks untouched. -/
def substParts (email fn : Str) : List TPart → Str
  | [] => []
  | .lit s :: ps => s ++ substParts email fn ps
  | .phEmail :: ps => email ++ substParts email fn ps
  | .phFirstName :: ps => fn ++ substParts email fn ps
  | .phName :: ps => fn ++ substParts email fn ps

/-- Effect of one `replaceAll` pass on a part: the matching token becomes
a literal carrying the substituted value. -/
def passTok (t : TPart) (v : Str) : TPart → TPart :=
  fun p => if p = t then .lit v else p

/-- Boolean check that a part's literal text contains no opening brace. -/
def litNoBraceB : TPart → Bool
  | .lit s => decide ('\x7b' ∉ s)
  | _ => true

theorem litNoBrace_mem {ps : List TPart} (h : ps.all litNoBraceB = true) :
    ∀ s, TPart.lit s ∈ ps → '\x7b' ∉ s := by
  intro s hs
  have := List.all_eq_true.mp h _ hs
  simpa [litNoBraceB] using this

theorem litNoBrace_map {ps : List TPart} {t : TPart} {v : Str}
    (hv : '\x7b' ∉ v) (h : ps.all litNoBraceB = true) :
    (ps.map (passTok t v)).all litNoBraceB = true := by
  rw [List.all_eq_true] at h ⊢
  intro p hp
  rw [List.mem_map] at hp
  obtain ⟨q, hq, he⟩ := hp
  subst he
  unfold passTok
  split
  · simpa [litNoBraceB] using hv
  · exact h q hq

theorem pass_phEmail (v : Str) : ∀ ps : List TPart, ps.all litNoBraceB = true →
    replaceAll (flattenParts ps) phEmailS v
      = flattenParts (ps.map (passTok .phEmail v)) := by
  intro ps
  induction ps with
  | nil => intro _; rfl
  | cons p ps ih =>
    intro h
    have hp : litNoBraceB p = true := (List.all_eq_true.mp h) p (List.mem_cons_self p ps)
    have hps : ps.all litNoBraceB = true := by
      rw [List.all_eq_true] at h ⊢
      exact fun q hq => h q (List.mem_cons_of_mem p hq)
    cases p with
    | lit s =>
      have hs : '\x7b' ∉ s := by simpa [litNoBraceB] using hp
      show replaceAll (s ++ flattenParts ps) phEmailS v = _
      rw [replaceAll_pass_lit2 s (flattenParts ps) phEmailS v '\x7b' rfl hs, ih hps]
      rfl
    | phEmail =>
      show replaceAll (phEmailS ++ flattenParts ps) phEmailS v = _
      rw [replaceAll_hit (flattenParts ps) phEmailS v (by decide), ih hps]
      rfl
    | phFirstName =>
      show replaceAll (phFirstNameS ++ flattenParts ps) phEmailS v = _
      rw [skip_firstName_email (flattenParts ps) v, ih hps]
      rfl
    | phName =>
      show replaceAll (phNameS ++ flattenParts ps) phEmailS v = _
      rw [skip_name_email (flattenParts ps) v, ih hps]
      rfl

theorem pass_phFirstName (v : Str) : ∀ ps : List TPart, ps.all litNoBraceB = true →
    replaceAll (flattenParts ps) phFirstNameS v
      = flattenParts (ps.map (passTok .phFirstName v)) := by
  intro ps
  induction ps with
  | nil => intro _; rfl
  | cons p ps ih =>
    intro h
    have hp : litNoBraceB p = true := (List.all_eq_true.mp h) p (List.mem_cons_self p ps)
    have hps : ps.all litNoBraceB = true := by
      rw [List.all_eq_true] at h ⊢
      exact fun q hq => h q (List.mem_cons_of_mem p hq)
    cases p with
    | lit s =>
      have hs : '\x7b' ∉ s := by simpa [litNoBraceB] using hp
      show replaceAll (s ++ flattenParts ps) phFirstNameS v = _
      rw [replaceAll_pass_lit2 s (flattenParts ps) phFirstNameS v '\x7b' rfl hs, ih hps]
      rfl
    | phEmail =>
      show replaceAll (phEmailS ++ flattenParts ps) phFirstNameS v = _
      rw [skip_email_firstName (flattenParts ps) v, ih hps]
      rfl
    | phFirstName =>
      show replaceAll (phFirstNameS ++ flattenParts ps) phFirstNameS v = _
      rw [replaceAll_hit (flattenParts ps) phFirstNameS v (by decide), ih hps]
      rfl
    | phName =>
      show replaceAll (phNameS ++ flattenParts ps) phFirstNameS v = _
      rw [skip_name_firstName (flattenParts ps) v, ih hps]
      rfl

theorem pass_phName (v : Str) : ∀ ps : List TPart, ps.all litNoBraceB = true →
    replaceAll (flattenParts ps) phNameS v
      = flattenParts (ps.map (passTok .phName v)) := by
  intro ps
  induction ps with
  | nil => intro _; rfl
  | cons p ps ih =>
    intro h
    have hp : litNoBraceB p = true := (List.all_eq_true.mp h) p (List.mem_cons_self p ps)
    have hps : ps.all litNoBraceB = true := by
      rw [List.all_eq_true] at h ⊢
      exact fun q hq => h q (List.mem_cons_of_mem p hq)
    cases p with
    | lit s =>
      have hs : '\x7b' ∉ s := by simpa [litNoBraceB] using hp
      show replaceAll (s ++ flattenParts ps) phNameS v = _
      rw [replaceAll_pass_lit2 s (flattenParts ps) phNameS v '\x7b' rfl hs, ih hps]
      rfl
    | phEmail =>
      show replaceAll (phEmailS ++ flattenParts ps) phNameS v = _
      rw [skip_email_name (flattenParts ps) v, ih hps]
      rfl
    | phFirstName =>
      show replaceAll (phFirstNameS ++ flattenParts ps) phNameS v = _
      rw [skip_firstName_name (flattenParts ps) v, ih hps]
      rfl
    | phName =>
      show replaceAll (phNameS ++ flattenParts ps) phNameS v = _
      rw [replaceAll_hit (flattenParts ps) phNameS v (by decide), ih hps]
      rfl

theorem flatten_three_passes (email fn : Str) (ps : List TPart) :
    flattenParts (((ps.map (passTok .phEmail email)).map
        (passTok .phFirstName fn)).map (passTok .phName fn))
      = substParts email fn ps := by
  induction ps with
  | nil => rfl
  | cons p ps ih =>
    cases p with
    | lit s =>
      show s ++ flattenParts (((ps.map (passTok .phEmail email)).map
          (passTok .phFirstName fn)).map (passTok .phName fn)) = s ++ substParts email fn ps
      exact congrArg (fun l => s ++ l) ih
    | phEmail =>
      show email ++ flattenParts (((ps.map (passTok .phEmail email)).map
          (passTok .phFirstName fn)).map (passTok .phName fn)) = email ++ substParts email fn ps
      exact congrArg (fun l => email ++ l) ih
    | phFirstName =>
      show fn ++ flattenParts (((ps.map (passTok .phEmail email)).map
          (passTok .phFirstName fn)).map (passTok .phName fn)) = fn ++ substParts email fn ps
      exact congrArg (fun l => fn ++ l) ih
    | phName =>
      show fn ++ flattenParts (((ps.map (passTok .phEmail email)).map
          (passTok .phFirstName fn)).map (passTok .phName fn)) = fn ++ substParts email fn ps
      exact congrArg (fun l => fn ++ l) ih

end TemplateTokens

/-- Modelled from the spec: one-pass simultaneous replacement of the
three placeholders, scanning left to right, never rescanning substituted
text — the reading of "replaces every exact occurrence of the
placeholders and leaves all other text byte-for-byte unchanged"
(fuel-indexed worker). -/
def renderSpecFuel : Nat → Str → Str → Str → Str
  | 0, t, _, _ => t
  | Nat.succ fuel, t, em, fn =>
    match t with
    | [] => []
    | c :: rest =>
      if phEmailS.isPrefixOf (c :: rest) then em ++ renderSpecFuel fuel (rest.drop 8) em fn
      else if phFirstNameS.isPrefixOf (c :: rest) then
        fn ++ renderSpecFuel fuel (rest.drop 12) em fn
      else if phNameS.isPrefixOf (c :: rest) then fn ++ renderSpecFuel fuel (rest.drop 7) em fn
      else c :: renderSpecFuel fuel rest em fn

/-- Modelled from the spec: simultaneous one-pass placeholder
replacement against a recipient. -/
def renderSpecSim (t em : Str) (nm : Option Str) : Str :=
  renderSpecFuel t.length t em (displayName em nm)

/-- C3 counterexample: with name `A{{name}}B`, the sequential passes of
`renderRecipientTemplate` rescan the substituted display name, so the
result differs from one-pass replacement of every exact placeholder
occurrence (the code yields `AA{{name}}BB` where the claim demands
`A{{name}}B`). -/
theorem render_differs_from_simultaneous :
    renderRecipientTemplate (("\x7b\x7bfirstName\x7d\x7d").toList) (("e@x").toList)
        (some (("A\x7b\x7bname\x7d\x7dB").toList))
      ≠ renderSpecSim (("\x7b\x7bfirstName\x7d\x7d").toList) (("e@x").toList)
        (some (("A\x7b\x7bname\x7d\x7dB").toList)) := by decide

/-- C3 (amended): for a template assembled from placeholder tokens and
literal chunks containing no opening brace, and a recipient whose email
and display value contain no opening brace, `renderRecipientTemplate`
replaces every placeholder token with its value ( `{{email}}` with the
email, `{{firstName}}` and `{{name}}` with the trimmed name if non-empty
else the email) and leaves every literal chunk byte-for-byte unchanged.
Outside this class the sequential passes may rescan substituted values,
so the claim as stated fails (see the counterexample). -/
theorem render_replaces_tokens_of_wellformed (ps : List TPart) (email : Str)
    (name : Option Str)
    (hlit : ps.all litNoBraceB = true)
    (hem : '\x7b' ∉ email)
    (hfn : '\x7b' ∉ displayName email name) :
    renderRecipientTemplate (flattenParts ps) email name
      = substParts email (displayName email name) ps := by
  show replaceAll (replaceAll (replaceAll (flattenParts ps) phEmailS email)
      phFirstNameS (displayName email name)) phNameS (displayName email name)
    = substParts email (displayName email name) ps
  rw [pass_phEmail email ps hlit,
      pass_phFirstName (displayName email name) _ (litNoBrace_map hem hlit),
      pass_phName (displayName email name) _
        (litNoBrace_map hfn (litNoBrace_map hem hlit)),
      flatten_three_passes]

/-- Witness for the amended C3 theorem at a concrete template and recipient. -/
theorem render_replaces_tokens_witness :
    ([TPart.lit (("Hello ").toList), TPart.phName,
        TPart.lit (("!").toList)].all litNoBraceB = true) ∧
    '\x7b' ∉ (("e@x").toList) ∧
    '\x7b' ∉ displayName (("e@x").toList) (some (("Bob").toList)) ∧
    renderRecipientTemplate
        (flattenParts [TPart.lit (("Hello ").toList), TPart.phName,
          TPart.lit (("!").toList)])
        (("e@x").toList) (some (("Bob").toList))
      = substParts (("e@x").toList)
          (displayName (("e@x").toList) (some (("Bob").toList)))
          [TPart.lit (("Hello ").toList), TPart.phName, TPart.lit (("!").toList)] :=
  ⟨by decide, by decide, by decide,
    render_replaces_tokens_of_wellformed _ _ _ (by decide) (by decide) (by decide)⟩

/-- C8 counterexample: the recipient's email `E` and trimmed name `ma`
contain none of the three placeholder substrings, yet rendering the
template `{{e{{name}}il}}` once produces `{{email}}` (the substitution
manufactures a new placeholder across chunk boundaries), so rendering a
second time changes the string: the claimed idempotence fails. -/
theorem render_not_idempotent_counterexample :
    (occursIn phEmailS (("E").toList) = false ∧
     occursIn phFirstNameS (("E").toList) = false ∧
     occursIn phNameS (("E").toList) = false ∧
     occursIn phEmailS (jsTrim (("ma").toList)) = false ∧
     occursIn phFirstNameS (jsTrim (("ma").toList)) = false ∧
     occursIn phNameS (jsTrim (("ma").toList)) = false) ∧
    renderRecipientTemplate
        (renderRecipientTemplate (("\x7b\x7be\x7b\x7bname\x7d\x7dil\x7d\x7d").toList)
          (("E").toList) (some (("ma").toList)))
        (("E").toList) (some (("ma").toList))
      ≠ renderRecipientTemplate (("\x7b\x7be\x7b\x7bname\x7d\x7dil\x7d\x7d").toList)
          (("E").toList) (some (("ma").toList)) := by decide

/-- C8 (amended): rendering is idempotent whenever the once-rendered
output itself contains no occurrence of `{{email}}`, `{{firstName}}` or
`{{name}}`; a hypothesis on the substituted values alone does not
suffice, because substitution can manufacture new placeholders from
template fragments (see the counterexample). -/
theorem render_idempotent_of_no_placeholder_in_output (t email : Str) (name : Option Str)
    (h1 : occursIn phEmailS (renderRecipientTemplate t email name) = false)
    (h2 : occursIn phFirstNameS (renderRecipientTemplate t email name) = false)
    (h3 : occursIn phNameS (renderRecipientTemplate t email name) = false) :
    renderRecipientTemplate (renderRecipientTemplate t email name) email name
      = renderRecipientTemplate t email name := by
  show replaceAll (replaceAll (replaceAll (renderRecipientTemplate t email name)
      phEmailS email) phFirstNameS (displayName email name)) phNameS (displayName email name)
    = renderRecipientTemplate t email name
  rw [replaceAll_of_not_occurs _ phEmailS email h1,
      replaceAll_of_not_occurs _ phFirstNameS (displayName email name) h2,
      replaceAll_of_not_occurs _ phNameS (displayName email name) h3]

/-- Witness for the amended C8 theorem at a concrete template and recipient. -/
theorem render_idempotent_witness :
    (occursIn phEmailS (renderRecipientTemplate (("Hi \x7b\x7bname\x7d\x7d").toList)
        (("e@x").toList) (some (("Bob").toList))) = false) ∧
    (occursIn phFirstNameS (renderRecipientTemplate (("Hi \x7b\x7bname\x7d\x7d").toList)
        (("e@x").toList) (some (("Bob").toList))) = false) ∧
    (occursIn phNameS (renderRecipientTemplate (("Hi \x7b\x7bname\x7d\x7d").toList)
        (("e@x").toList) (some (("Bob").toList))) = false) ∧
    renderRecipientTemplate
        (renderRecipientTemplate (("Hi \x7b\x7bname\x7d\x7d").toList) (("e@x").toList)
          (some (("Bob").toList)))
        (("e@x").toList) (some (("Bob").toList))
      = renderRecipientTemplate (("Hi \x7b\x7bname\x7d\x7d").toList) (("e@x").toList)
          (some (("Bob").toList)) :=
  ⟨by decide, by decide, by decide,
    render_idempotent_of_no_placeholder_in_output _ _ _ (by decide) (by decide) (by decide)⟩

section TrimLemmas

theorem dropWhile_idem (p : Char → Bool) (l : Str) :
    (l.dropWhile p).dropWhile p = l.dropWhile p := by
  induction l with
  | nil => rfl
  | cons a l ih =>
    cases hpa : p a with
    | true => simp [List.dropWhile_cons, hpa, ih]
    | false => simp [List.dropWhile_cons, hpa]

theorem dropWhile_eq_self_of_front (p : Char → Bool) {l l' : Str}
    (hl : l.dropWhile p = l) (hp : l' <+: l) : l'.dropWhile p = l' := by
  cases l' with
  | nil => rfl
  | cons a t =>
    cases l with
    | nil =>
      obtain ⟨r, hr⟩ := hp
      simp at hr
    | cons b u =>
      obtain ⟨r, hr⟩ := hp
      simp only [List.cons_append] at hr
      have hab : a = b := by
        injection hr
      have h2 := List.head?_dropWhile_not p (b :: u)
      rw [hl] at h2
      have hpb : p b = false := by simpa using h2
      rw [List.dropWhile_cons, hab]
      simp [hpb]

theorem jsTrim_idem (s : Str) : jsTrim (jsTrim s) = jsTrim s := by
  unfold jsTrim
  have hu : (s.dropWhile isJsWs).dropWhile isJsWs = s.dropWhile isJsWs :=
    dropWhile_idem isJsWs s
  have hpref :
      ((s.dropWhile isJsWs).reverse.dropWhile isJsWs).reverse <+: s.dropWhile isJsWs := by
    have hsuf := List.dropWhile_suffix (l := (s.dropWhile isJsWs).reverse) isJsWs
    have := List.reverse_prefix.mpr hsuf
    simpa using this
  rw [dropWhile_eq_self_of_front isJsWs hu hpref, List.reverse_reverse,
      dropWhile_idem]

theorem jsTrim_replicate (n : Nat) (c : Char) (h : isJsWs c = false) :
    jsTrim (List.replicate n c) = List.replicate n c := by
  unfold jsTrim
  rw [List.dropWhile_replicate, if_neg (by simp [h]), List.reverse_replicate,
      List.dropWhile_replicate, if_neg (by simp [h]), List.reverse_replicate]

end TrimLemmas

section SendPipelineModel

/-- A stored contact (Prisma `Recipient` row). -/
structure Recipient where
  id : Str
  email : Str
  name : Option Str
  active : Bool
  createdAt : Nat
deriving DecidableEq, Repr

/-- A Prisma `Campaign` row; `id` is assigned from the store's counter. -/
structure Campaign where
  id : Nat
  subject : Str
  body : Str
deriving DecidableEq, Repr

/-- Delivery statuses actually persisted by the orchestrator. -/
inductive DeliveryStatus
  | SENT
  | FAILED
deriving DecidableEq, BEq, Repr

/-- A Prisma `Delivery` row as created by the send loop. -/
structure Delivery where
  campaignId : Nat
  recipientId : Str
  status : DeliveryStatus
  providerMessageId : Option Str
  error : Option Str
  sentAt : Option Nat
deriving DecidableEq, Repr

/-- The persistent store: recipients are kept in creation order; `nextId`
is the campaign id counter. -/
structure Db where
  recipients : List Recipient
  campaigns : List Campaign
  deliveries : List Delivery
  nextId : Nat
deriving DecidableEq, Repr

/-- An outbound attachment (`Mail.Attachment`). -/
structure Attachment where
  filename : Str
  content : List Nat
  contentType : Option Str
deriving DecidableEq, Repr

/-- A temporary file written by the multipart parser. -/
structure TempFile where
  filepath : Str
  originalFilename : Option Str
  mimetype : Option Str
  content : List Nat
deriving DecidableEq, Repr

/-- The message handed to the mail transport. -/
structure Mail where
  toAddr : Str
  subject : Str
  text : Str
  html : Str
  attachments : List Attachment
deriving DecidableEq, Repr

/-- The transport's success value (`info.messageId`). -/
structure MsgInfo where
  messageId : Option Str
deriving DecidableEq, Repr

/-- One entry of the response's `results` array. -/
structure ResultEntry where
  recipientId : Str
  email : Str
  status : DeliveryStatus
  error : Option Str
  sentAt : Option Nat
deriving DecidableEq, Repr

/-- External collaborators of the handler: the `sanitize-html` and
`html-to-text` libraries, the mail transport, and the clock. -/
structure Env where
  sanitize : Str → Str
  convert : Str → Str
  transport : Mail → Except Str MsgInfo
  now : Nat

/-- The value produced by a successful `sendSchema.safeParse`. -/
structure SendPayload where
  subject : Str
  bodyText : Str
  bodyHtml : Option Str
  recipientIds : List Str
deriving DecidableEq, Repr

/-- The object handed to `sendSchema.safeParse`; `none` stands for a
missing field or one of the wrong JSON type. -/
structure RawSchemaInput where
  subject : Option Str
  bodyText : Option Str
  bodyHtml : Option Str
  recipientIds : Option (List Str)
deriving DecidableEq, Repr

/-- The zod bound checks of `sendSchema` (lines 175-180 of
`src/pages/api/send.ts`), applied to the already-trimmed subject and
body text. -/
def validPayload (st bt : Str) (html : Option Str) (ids : List Str) : Bool :=
  decide (1 ≤ st.length) && decide (st.length ≤ 300) &&
  decide (1 ≤ bt.length) && decide (bt.length ≤ 20000) &&
  (html.all fun h => decide (h.length ≤ 120000)) &&
  decide (1 ≤ ids.length) && (ids.all fun i => decide (1 ≤ i.length))

/-- `sendSchema.safeParse`: zod's `.trim()` transforms subject and body
text before the length checks; `bodyHtml` is optional and not trimmed;
`recipientIds` must be a non-empty array of non-empty strings. -/
def sendSchemaParse (r : RawSchemaInput) : Option SendPayload :=
  match r.subject, r.bodyText, r.recipientIds with
  | some s, some b, some ids =>
    if validPayload (jsTrim s) (jsTrim b) r.bodyHtml ids then
      some ⟨jsTrim s, jsTrim b, r.bodyHtml, ids⟩
    else none
  | _, _, _ => none

def MAX_ATTACHMENT_COUNT : Nat := 10

def MAX_ATTACHMENT_TOTAL_BYTES : Nat := 20 * 1024 * 1024

def tooManyMsg : Str := ("Too many attachments. Max 10 files.").toList

def tooLargeMsg : Str := ("Attachments are too large. Keep total under 20MB.").toList

def invalidMsg : Str := ("Invalid send request.").toList

def noActiveMsg : Str := ("No active recipients selected.").toList

/-- The per-file loop of `buildAttachmentsFromFiles`: read each file,
add its byte length to the running total, and fail as soon as the total
exceeds the 20MB cap. -/
def attachLoop : List TempFile → Nat → Except Str (List Attachment)
  | [], _ => .ok []
  | f :: fs, totalBytes =>
    let t := totalBytes + f.content.length
    if MAX_ATTACHMENT_TOTAL_BYTES < t then .error tooLargeMsg
    else
      match attachLoop fs t with
      | .error e => .error e
      | .ok rest =>
        .ok (⟨(match f.originalFilename with
                | some s => if s = [] then ("attachment").toList else s
                | none => ("attachment").toList),
              f.content,
              (match f.mimetype with
                | some m => if m = [] then none else some m
                | none => none)⟩ :: rest)

/-- `buildAttachmentsFromFiles`: reject more than 10 files up front,
then run the byte-cap loop. -/
def buildAttachmentsFromFiles (files : List TempFile) : Except Str (List Attachment) :=
  if MAX_ATTACHMENT_COUNT < files.length then .error tooManyMsg
  else attachLoop files 0

/-- Outcome of `JSON.parse` on the multipart `recipientIds` field. -/
inductive RIdsField
  | throws (msg : Str)
  | arr (ids : List Str)
  | nonArray
deriving DecidableEq, Repr

/-- Whether the `recipientIds` field's `JSON.parse` would throw. -/
def ridsThrows : Option RIdsField → Bool
  | some (.throws _) => true
  | _ => false

/-- The value the multipart path passes to the schema for
`recipientIds`: `[]` when the field is absent, the parsed array when it
is one, and an invalid value otherwise. -/
def ridsValue : Option RIdsField → Option (List Str)
  | none => some []
  | some (.arr ids) => some ids
  | some _ => none

/-- The fields and files of a successfully parsed multipart form. -/
structure MultipartForm where
  subject : Option Str
  bodyText : Option Str
  bodyHtml : Option Str
  recipientIdsField : Option RIdsField
  files : List TempFile
deriving DecidableEq, Repr

/-- A rejection by the multipart parser itself (formidable), carrying the
temp files it had already written before failing. -/
structure MultipartFailure where
  message : Str
  filesWritten : List TempFile
deriving DecidableEq, Repr

/-- A decoded JSON request body (`none` marks absent fields). -/
structure RawInput where
  subject : Option Str
  bodyText : Option Str
  body : Option Str
  bodyHtml : Option Str
  recipientIds : Option (List Str)
deriving DecidableEq, Repr

/-- An inbound HTTP request as seen by the handler: a non-POST request,
a JSON body (or a JSON parse failure), or a multipart body (or a parser
failure). -/
inductive Request
  | nonPost
  | json (outcome : Except Str RawInput)
  | multipart (outcome : Except MultipartFailure MultipartForm)

/-- A validated payload together with its collected attachments. -/
structure PreparedSendPayload where
  payload : SendPayload
  attachments : List Attachment
deriving DecidableEq, Repr

/-- The schema input built on the JSON path (`bodyText ?? body`). -/
def jsonSchemaInput (raw : RawInput) : RawSchemaInput :=
  ⟨raw.subject, raw.bodyText <|> raw.body, raw.bodyHtml, raw.recipientIds⟩

/-- The schema input built on the multipart path. -/
def formSchemaInput (form : MultipartForm) : RawSchemaInput :=
  ⟨form.subject, form.bodyText, form.bodyHtml, ridsValue form.recipientIdsField⟩

/-- The `try` block of the multipart branch of `parseSendRequest`:
`JSON.parse` of `recipientIds` first (a throw propagates), then schema
validation, then attachment collection. -/
def multipartInner (form : MultipartForm) : Except Str PreparedSendPayload :=
  match form.recipientIdsField with
  | some (.throws m) => .error m
  | _ =>
    match sendSchemaParse (formSchemaInput form) with
    | none => .error invalidMsg
    | some p =>
      match buildAttachmentsFromFiles form.files with
      | .error e => .error e
      | .ok atts => .ok ⟨p, atts⟩

/-- `parseSendRequest`: the second component is the set of temp files
still on disk when it returns.  The `finally` block deletes every
uploaded file on the paths reached after a successful multipart parse;
a parser-level failure never reaches it. -/
def parseSendRequest : Request → Except Str PreparedSendPayload × List TempFile
  | .nonPost => (.error invalidMsg, [])
  | .json (.error m) => (.error m, [])
  | .json (.ok raw) =>
    (match sendSchemaParse (jsonSchemaInput raw) with
     | none => .error invalidMsg
     | some p => .ok ⟨p, []⟩, [])
  | .multipart (.error fail) => (.error fail.message, fail.filesWritten)
  | .multipart (.ok form) => (multipartInner form, [])

/-- JavaScript `Array.from(new Set(ids))`: first occurrences, in order. -/
def dedupFirstAux (seen : List Str) : List Str → List Str
  | [] => []
  | x :: xs =>
    if seen.contains x then dedupFirstAux seen xs
    else x :: dedupFirstAux (x :: seen) xs

/-- Deduplicate the requested recipient ids by value. -/
def dedupFirst (ids : List Str) : List Str := dedupFirstAux [] ids

/-- `prisma.recipient.findMany` with `id ∈ uniqueRecipientIds`,
`active = true`, ordered by creation time: the store keeps recipients in
creation order, so the query is a filter. -/
def resolveRecipients (db : Db) (ids : List Str) : List Recipient :=
  db.recipients.filter fun r => r.active && decide (r.id ∈ dedupFirst ids)

/-- `htmlToPlainText`: the `html-to-text` conversion followed by `.trim()`. -/
def htmlToPlainText (env : Env) (html : Str) : Str := jsTrim (env.convert html)

def newlineS : Str := ("\n").toList

def brS : Str := ("<br/>").toList

/-- `escapeHtml(text).replaceAll("\n", "<br/>")`. -/
def escapeWithBreaks (t : Str) : Str := replaceAll (escapeHtml t) newlineS brS

/-- `sanitizeMainBodyHtml`: escape the plain text when no usable rich
body is present, otherwise the sanitized (and trimmed) rich body. -/
def sanitizeMainBodyHtml (env : Env) (rawHtml : Option Str) (fallbackText : Str) : Str :=
  match rawHtml with
  | none => escapeWithBreaks fallbackText
  | some h =>
    if jsTrim h = [] then escapeWithBreaks fallbackText
    else
      let sanitized := jsTrim (env.sanitize h)
      if sanitized = [] then escapeWithBreaks fallbackText else sanitized

/-- The shared sanitized HTML body (line 463 of `src/pages/api/send.ts`). -/
def preparedHtml (env : Env) (p : SendPayload) : Str :=
  sanitizeMainBodyHtml env p.bodyHtml p.bodyText

/-- The normalized plain-text body (line 467):
`bodyText.trim() || htmlToPlainText(sanitizedMainBodyHtml)`. -/
def preparedText (env : Env) (p : SendPayload) : Str :=
  orElseStr (jsTrim p.bodyText) (htmlToPlainText env (preparedHtml env p))

def EMAIL_SIGNATURE : Str :=
  ("Best,\nRishikesh Yadav\nFounder, Comply AI\nrishi@complyai.dev | LinkedIn | +1 (862)-703 8504").toList

def EMAIL_INTRO_TEMPLATE : Str :=
  ("Hi \x7b\x7bname\x7d\x7d,\n\nI hope this email finds you well.").toList

def LINKEDIN_URL : Str := ("https://www.linkedin.com/in/rishikesh-y-75846420b/").toList

/-- `buildEmailText`: rendered intro, main body, fixed signature. -/
def buildEmailText (mainBodyText : Str) (email : Str) (name : Option Str) : Str :=
  renderRecipientTemplate EMAIL_INTRO_TEMPLATE email name ++ ("\n\n").toList ++
    mainBodyText ++ ("\n\n").toList ++ EMAIL_SIGNATURE

def htmlWrapPre : Str :=
  ("\n    <div style=\"font-family:Arial,sans-serif;line-height:1.5;color:#111827\">\n      <p style=\"margin:0 0 12px 0\">").toList

def htmlWrapMid1 : Str :=
  ("</p>\n      <p style=\"margin:0 0 16px 0\">I hope this email finds you well.</p>\n      <div style=\"margin:0 0 16px 0\">").toList

def htmlWrapMid2 : Str :=
  ("</div>\n      <p style=\"margin:0\">\n        Best,<br/>\n        Rishikesh Yadav<br/>\n        Founder, Comply AI<br/>\n        rishi@complyai.dev |\n        <a href=\"").toList

def htmlWrapEnd : Str :=
  ("\" target=\"_blank\" rel=\"noopener noreferrer\">LinkedIn</a>\n        | +1 (862)-703 8504\n      </p>\n    </div>\n  ").toList

/-- `buildEmailHtml`: fixed wrapper with escaped greeting, fixed line,
the main HTML body, and the signature block with a hyperlink. -/
def buildEmailHtml (mainBodyHtml : Str) (email : Str) (name : Option Str) : Str :=
  let greetingLine := renderRecipientTemplate (("Hi \x7b\x7bname\x7d\x7d,").toList) email name
  jsTrim (htmlWrapPre ++ escapeHtml greetingLine ++ htmlWrapMid1 ++ mainBodyHtml ++
    htmlWrapMid2 ++ LINKEDIN_URL ++ htmlWrapEnd)

/-- `info.messageId || null`: an absent or empty id is stored as null. -/
def normMsgId : Option Str → Option Str
  | none => none
  | some m => if m = [] then none else some m

/-- The message assembled for one recipient (lines 485-501). -/
def recipientMail (env : Env) (prep : PreparedSendPayload) (r : Recipient) : Mail :=
  let p := prep.payload
  let subject := renderRecipientTemplate p.subject r.email r.name
  let sHtml := preparedHtml env p
  let nText := preparedText env p
  let recipientBodyHtml := jsTrim (renderRecipientTemplate sHtml r.email r.name)
  let recipientBodyText :=
    jsTrim (renderRecipientTemplate (orElseStr nText (htmlToPlainText env sHtml)) r.email r.name)
  ⟨r.email, subject, buildEmailText recipientBodyText r.email r.name,
    buildEmailHtml recipientBodyHtml r.email r.name, prep.attachments⟩

/-- One iteration of the send loop: invoke the transport and build the
delivery row and result entry for this recipient (lines 494-544). -/
def attemptRecipient (env : Env) (campaignId : Nat) (prep : PreparedSendPayload)
    (r : Recipient) : Delivery × ResultEntry :=
  match env.transport (recipientMail env prep r) with
  | .ok info =>
    (⟨campaignId, r.id, .SENT, normMsgId info.messageId, none, some env.now⟩,
     ⟨r.id, r.email, .SENT, none, some env.now⟩)
  | .error msg =>
    (⟨campaignId, r.id, .FAILED, none, some (msg.take 1000), none⟩,
     ⟨r.id, r.email, .FAILED, some msg, none⟩)

/-- The handler's HTTP response. -/
inductive Response
  | methodNotAllowed
  | badRequest (msg : Str)
  | ok (campaignId : Nat) (sentCount failedCount total : Nat) (results : List ResultEntry)
deriving DecidableEq, Repr

/-- The request handler of `src/pages/api/send.ts` (lines 433-563):
method check, request parsing, recipient resolution, content
normalization, campaign creation, the sequential send loop, and the
aggregate response.  Returns the response, the updated store, and the
temp files left on disk. -/
def handler (env : Env) (db : Db) (req : Request) : Response × Db × List TempFile :=
  match req with
  | .nonPost => (.methodNotAllowed, db, [])
  | _ =>
    match parseSendRequest req with
    | (.error m, leftover) => (.badRequest m, db, leftover)
    | (.ok prep, leftover) =>
      let recipients := resolveRecipients db prep.payload.recipientIds
      if recipients.length = 0 then (.badRequest noActiveMsg, db, leftover)
      else
        let campaign : Campaign := ⟨db.nextId, prep.payload.subject, preparedText env prep.payload⟩
        let pairs := recipients.map (attemptRecipient env db.nextId prep)
        let results := pairs.map Prod.snd
        let sentCount := (results.filter fun e => e.status == DeliveryStatus.SENT).length
        (.ok db.nextId sentCount (results.length - sentCount) results.length results,
         { db with
             campaigns := db.campaigns ++ [campaign],
             deliveries := db.deliveries ++ pairs.map Prod.fst,
             nextId := db.nextId + 1 },
         leftover)

end SendPipelineModel

section HandlerLemmas

theorem attemptRecipient_fst_recipientId (env : Env) (cid : Nat)
    (prep : PreparedSendPayload) (r : Recipient) :
    (attemptRecipient env cid prep r).1.recipientId = r.id := by
  unfold attemptRecipient
  cases env.transport (recipientMail env prep r) <;> rfl

/-- Shape of the handler's success path on a JSON request: campaign
created, one loop iteration per resolved recipient, aggregate counts. -/
theorem handler_json_ok (env : Env) (db : Db) (raw : RawInput) (payload : SendPayload)
    (hp : sendSchemaParse (jsonSchemaInput raw) = some payload)
    (hne : resolveRecipients db payload.recipientIds ≠ []) :
    handler env db (.json (.ok raw)) =
      ((Response.ok db.nextId
          ((((resolveRecipients db payload.recipientIds).map
              (attemptRecipient env db.nextId ⟨payload, []⟩)).map Prod.snd).filter
                (fun e => e.status == DeliveryStatus.SENT)).length
          ((((resolveRecipients db payload.recipientIds).map
              (attemptRecipient env db.nextId ⟨payload, []⟩)).map Prod.snd).length -
            ((((resolveRecipients db payload.recipientIds).map
              (attemptRecipient env db.nextId ⟨payload, []⟩)).map Prod.snd).filter
                (fun e => e.status == DeliveryStatus.SENT)).length)
          (((resolveRecipients db payload.recipientIds).map
              (attemptRecipient env db.nextId ⟨payload, []⟩)).map Prod.snd).length
          (((resolveRecipients db payload.recipientIds).map
              (attemptRecipient env db.nextId ⟨payload, []⟩)).map Prod.snd)),
       { db with
           campaigns := db.campaigns ++
             [⟨db.nextId, payload.subject, preparedText env payload⟩],
           deliveries := db.deliveries ++
             ((resolveRecipients db payload.recipientIds).map
               (attemptRecipient env db.nextId ⟨payload, []⟩)).map Prod.fst,
           nextId := db.nextId + 1 },
       ([] : List TempFile)) := by
  have h0 : ¬ (resolveRecipients db payload.recipientIds).length = 0 :=
    fun h => hne (List.length_eq_zero.mp h)
  simp only [handler, parseSendRequest, hp]
  rw [if_neg h0]

/-- Whether a response is the 200 success response. -/
def Response.isOk : Response → Bool
  | .ok _ _ _ _ _ => true
  | _ => false

/-- The `sentCount` field of a 200 response. -/
def Response.sentCountOf : Response → Nat
  | .ok _ s _ _ _ => s
  | _ => 0

/-- The `failedCount` field of a 200 response. -/
def Response.failedCountOf : Response → Nat
  | .ok _ _ f _ _ => f
  | _ => 0

/-- The `total` field of a 200 response. -/
def Response.totalOf : Response → Nat
  | .ok _ _ _ t _ => t
  | _ => 0

/-- The `results` list of a 200 response. -/
def Response.resultsOf : Response → List ResultEntry
  | .ok _ _ _ _ res => res
  | _ => []

theorem attemptRecipient_snd_recipientId (env : Env) (cid : Nat)
    (prep : PreparedSendPayload) (r : Recipient) :
    (attemptRecipient env cid prep r).2.recipientId = r.id := by
  unfold attemptRecipient
  cases env.transport (recipientMail env prep r) <;> rfl

end HandlerLemmas

/-- C1: on a valid JSON send request with a non-empty resolved recipient
set of size N, and with every delivery-ledger write succeeding (ledger
writes are infallible in this model), the handler returns a 200 response
with `sentCount + failedCount = N = total`, one result entry per resolved
recipient in resolution order, and creates exactly N delivery rows, one
per resolved recipient in resolution order. -/
theorem handler_counts_invariant (env : Env) (db : Db) (raw : RawInput)
    (payload : SendPayload)
    (hp : sendSchemaParse (jsonSchemaInput raw) = some payload)
    (hne : resolveRecipients db payload.recipientIds ≠ []) :
    ((handler env db (.json (.ok raw))).1.isOk = true) ∧
    ((handler env db (.json (.ok raw))).1.sentCountOf +
        (handler env db (.json (.ok raw))).1.failedCountOf
      = (resolveRecipients db payload.recipientIds).length) ∧
    ((handler env db (.json (.ok raw))).1.totalOf
      = (resolveRecipients db payload.recipientIds).length) ∧
    ((handler env db (.json (.ok raw))).1.resultsOf.length
      = (resolveRecipients db payload.recipientIds).length) ∧
    ((handler env db (.json (.ok raw))).1.resultsOf.map ResultEntry.recipientId
      = (resolveRecipients db payload.recipientIds).map Recipient.id) ∧
    ((handler env db (.json (.ok raw))).2.1.deliveries.length
      = db.deliveries.length + (resolveRecipients db payload.recipientIds).length) ∧
    (((handler env db (.json (.ok raw))).2.1.deliveries.drop db.deliveries.length).map
        Delivery.recipientId
      = (resolveRecipients db payload.recipientIds).map Recipient.id) ∧
    ((handler env db (.json (.ok raw))).2.2 = []) := by
  rw [handler_json_ok env db raw payload hp hne]
  have hlen : (((resolveRecipients db payload.recipientIds).map
      (attemptRecipient env db.nextId ⟨payload, []⟩)).map Prod.snd).length
      = (resolveRecipients db payload.recipientIds).length := by
    simp
  have hfle := List.length_filter_le (fun e => e.status == DeliveryStatus.SENT)
    (((resolveRecipients db payload.recipientIds).map
      (attemptRecipient env db.nextId ⟨payload, []⟩)).map Prod.snd)
  simp only [Response.isOk, Response.sentCountOf, Response.failedCountOf,
    Response.totalOf, Response.resultsOf]
  refine ⟨trivial, by omega, hlen, hlen, ?_, ?_, ?_, trivial⟩
  · rw [List.map_map, List.map_map]
    exact List.map_congr_left fun r _ => attemptRecipient_snd_recipientId env db.nextId _ r
  · simp
  · rw [List.drop_left, List.map_map, List.map_map]
    exact List.map_congr_left fun r _ => attemptRecipient_fst_recipientId env db.nextId _ r

def recW : Recipient := ⟨("r1").toList, ("a@x.com").toList, some (("Ann").toList), true, 0⟩

def dbW : Db := ⟨[recW], [], [], 0⟩

def dbEmptyW : Db := ⟨[], [], [], 0⟩

def envOkW : Env := ⟨fun s => s, fun _ => [], fun _ => .ok ⟨some (("mid").toList)⟩, 5⟩

def rawW : RawInput :=
  ⟨some (("Hi").toList), some (("Body").toList), none, none, some [("r1").toList]⟩

def payloadW : SendPayload := ⟨("Hi").toList, ("Body").toList, none, [("r1").toList]⟩

/-- Witness for C1 at a concrete request, store and transport. -/
theorem handler_counts_witness :
    sendSchemaParse (jsonSchemaInput rawW) = some payloadW ∧
    resolveRecipients dbW payloadW.recipientIds ≠ [] ∧
    ((handler envOkW dbW (.json (.ok rawW))).1.sentCountOf +
        (handler envOkW dbW (.json (.ok rawW))).1.failedCountOf
      = (resolveRecipients dbW payloadW.recipientIds).length) :=
  ⟨by decide, by decide,
    (handler_counts_invariant envOkW dbW rawW payloadW (by decide) (by decide)).2.1⟩

/-- Shared core for the transport-failure claims: when the transport
throws for the recipient at position `pre.length` of the resolved list,
the loop still produces one entry per recipient, the result entry is
FAILED with the full message and no `sentAt`, and the delivery row is
FAILED with the message truncated to 1000 characters, no
`providerMessageId` and no `sentAt`. -/
theorem handler_failed_entry (env : Env) (db : Db) (raw : RawInput)
    (payload : SendPayload) (pre post : List Recipient) (r : Recipient) (msg : Str)
    (hp : sendSchemaParse (jsonSchemaInput raw) = some payload)
    (hres : resolveRecipients db payload.recipientIds = pre ++ r :: post)
    (ht : env.transport (recipientMail env ⟨payload, []⟩ r) = .error msg) :
    ((handler env db (.json (.ok raw))).1.resultsOf.length
      = pre.length + 1 + post.length) ∧
    ((handler env db (.json (.ok raw))).1.resultsOf[pre.length]?
      = some ⟨r.id, r.email, .FAILED, some msg, none⟩) ∧
    (((handler env db (.json (.ok raw))).2.1.deliveries.drop
        db.deliveries.length)[pre.length]?
      = some ⟨db.nextId, r.id, .FAILED, none, some (msg.take 1000), none⟩) := by
  have hne : resolveRecipients db payload.recipientIds ≠ [] := by
    rw [hres]; simp
  rw [handler_json_ok env db raw payload hp hne]
  simp only [Response.resultsOf]
  rw [hres]
  refine ⟨?_, ?_, ?_⟩
  · simp
    omega
  · rw [List.map_append, List.map_append,
        List.getElem?_append_right (by simp)]
    simp [attemptRecipient, ht]
  · rw [List.drop_left, List.map_append, List.map_append,
        List.getElem?_append_right (by simp)]
    simp [attemptRecipient, ht]

/-- C2: a resolved recipient whose transport send throws yields a FAILED
delivery row whose error text is the thrown message truncated to 1000
characters, with no `sentAt` and no `providerMessageId`, and a FAILED
result entry with the error populated and no `sentAt`; the loop
continues, still producing one result entry per resolved recipient. -/
theorem handler_transport_failure_isolated (env : Env) (db : Db) (raw : RawInput)
    (payload : SendPayload) (pre post : List Recipient) (r : Recipient) (msg : Str)
    (hp : sendSchemaParse (jsonSchemaInput raw) = some payload)
    (hres : resolveRecipients db payload.recipientIds = pre ++ r :: post)
    (ht : env.transport (recipientMail env ⟨payload, []⟩ r) = .error msg) :
    ((handler env db (.json (.ok raw))).1.resultsOf.length
      = pre.length + 1 + post.length) ∧
    ((handler env db (.json (.ok raw))).1.resultsOf[pre.length]?
      = some ⟨r.id, r.email, .FAILED, some msg, none⟩) ∧
    (((handler env db (.json (.ok raw))).2.1.deliveries.drop
        db.deliveries.length)[pre.length]?
      = some ⟨db.nextId, r.id, .FAILED, none, some (msg.take 1000), none⟩) :=
  handler_failed_entry env db raw payload pre post r msg hp hres ht

def msgShortW : Str := ("boom").toList

def envFailShortW : Env := ⟨fun s => s, fun _ => [], fun _ => .error msgShortW, 5⟩

/-- Witness for C2: one resolved recipient whose transport call throws. -/
theorem handler_transport_failure_witness :
    sendSchemaParse (jsonSchemaInput rawW) = some payloadW ∧
    resolveRecipients dbW payloadW.recipientIds = [] ++ recW :: [] ∧
    ((handler envFailShortW dbW (.json (.ok rawW))).1.resultsOf[(0 : Nat)]?
      = some ⟨recW.id, recW.email, .FAILED, some msgShortW, none⟩) :=
  ⟨by decide, by decide,
    (handler_transport_failure_isolated envFailShortW dbW rawW payloadW [] [] recW msgShortW
      (by decide) (by decide) rfl).2.1⟩

def msgLongW : Str := List.replicate 1001 'x'

theorem msgLongW_length : msgLongW.length = 1001 := by
  show (List.replicate 1001 'x').length = 1001
  rw [List.length_replicate]

def envFailLongW : Env := ⟨fun s => s, fun _ => [], fun _ => .error msgLongW, 5⟩

/-- C10: when the thrown message is longer than 1000 characters, the
result entry of the response carries the full untruncated message while
the persisted delivery row's error text is the message truncated to 1000
characters, so the response-side and ledger-side error texts differ. -/
theorem handler_error_truncation_divergence (env : Env) (db : Db) (raw : RawInput)
    (payload : SendPayload) (pre post : List Recipient) (r : Recipient) (msg : Str)
    (hp : sendSchemaParse (jsonSchemaInput raw) = some payload)
    (hres : resolveRecipients db payload.recipientIds = pre ++ r :: post)
    (ht : env.transport (recipientMail env ⟨payload, []⟩ r) = .error msg)
    (hlong : 1000 < msg.length) :
    ((handler env db (.json (.ok raw))).1.resultsOf[pre.length]?
      = some ⟨r.id, r.email, .FAILED, some msg, none⟩) ∧
    (((handler env db (.json (.ok raw))).2.1.deliveries.drop
        db.deliveries.length)[pre.length]?
      = some ⟨db.nextId, r.id, .FAILED, none, some (msg.take 1000), none⟩) ∧
    (some (msg.take 1000) ≠ some msg) := by
  obtain ⟨-, h2, h3⟩ := handler_failed_entry env db raw payload pre post r msg hp hres ht
  refine ⟨h2, h3, ?_⟩
  intro h
  have heq : msg.take 1000 = msg := by injection h
  have hlen := congrArg List.length heq
  rw [List.length_take] at hlen
  omega

/-- Witness for C10: a 1001-character transport error message. -/
theorem handler_error_truncation_witness :
    sendSchemaParse (jsonSchemaInput rawW) = some payloadW ∧
    resolveRecipients dbW payloadW.recipientIds = [] ++ recW :: [] ∧
    1000 < msgLongW.length ∧
    (some (msgLongW.take 1000) ≠ some msgLongW) :=
  ⟨by decide, by decide, by rw [msgLongW_length]; decide,
    (handler_error_truncation_divergence envFailLongW dbW rawW payloadW [] [] recW msgLongW
      (by decide) (by decide) rfl (by rw [msgLongW_length]; decide)).2.2⟩

/-- C4: the resolver deduplicates the requested ids by value and fetches
only rows with `active = true` in creation order: every resolved
recipient is active, resolution preserves the store's creation-time
ordering, and — recipient ids being unique in the store — the resolved
set's size is at most the number of unique requested ids. -/
theorem resolver_properties (db : Db) (ids : List Str) :
    (∀ r ∈ resolveRecipients db ids, r.active = true) ∧
    ((db.recipients.Pairwise fun a b => a.createdAt ≤ b.createdAt) →
      (resolveRecipients db ids).Pairwise fun a b => a.createdAt ≤ b.createdAt) ∧
    ((db.recipients.map Recipient.id).Nodup →
      (resolveRecipients db ids).length ≤ (dedupFirst ids).length) := by
  refine ⟨?_, ?_, ?_⟩
  · intro r hr
    have := (List.mem_filter.mp hr).2
    exact (Bool.and_eq_true_iff.mp this).1
  · intro hsorted
    exact hsorted.sublist (List.filter_sublist db.recipients)
  · intro hnodup
    have hsub : List.Sublist (resolveRecipients db ids) db.recipients :=
      List.filter_sublist db.recipients
    have hnd : ((resolveRecipients db ids).map Recipient.id).Nodup :=
      hnodup.sublist (hsub.map Recipient.id)
    have hmem : ∀ x ∈ (resolveRecipients db ids).map Recipient.id, x ∈ dedupFirst ids := by
      intro x hx
      rw [List.mem_map] at hx
      obtain ⟨r, hr, hxe⟩ := hx
      have := (List.mem_filter.mp hr).2
      have hd := (Bool.and_eq_true_iff.mp this).2
      subst hxe
      exact of_decide_eq_true hd
    have h1 : (resolveRecipients db ids).length
        = ((resolveRecipients db ids).map Recipient.id).length := by
      rw [List.length_map]
    have h2 : ((resolveRecipients db ids).map Recipient.id).length
        = ((resolveRecipients db ids).map Recipient.id).toFinset.card :=
      (List.toFinset_card_of_nodup hnd).symm
    have h3 : ((resolveRecipients db ids).map Recipient.id).toFinset ⊆
        (dedupFirst ids).toFinset := by
      intro x hx
      rw [List.mem_toFinset] at hx ⊢
      exact hmem x hx
    calc (resolveRecipients db ids).length
        = ((resolveRecipients db ids).map Recipient.id).toFinset.card := by rw [h1, h2]
      _ ≤ (dedupFirst ids).toFinset.card := Finset.card_le_card h3
      _ ≤ (dedupFirst ids).length := List.toFinset_card_le (dedupFirst ids)

/-- Witness for C4 at a concrete store with duplicate requested ids and
an inactive recipient. -/
theorem resolver_properties_witness :
    ((⟨[recW, ⟨("r2").toList, ("b@x.com").toList, none, false, 1⟩], [], [], 0⟩ :
        Db).recipients.map Recipient.id).Nodup ∧
    (resolveRecipients
        ⟨[recW, ⟨("r2").toList, ("b@x.com").toList, none, false, 1⟩], [], [], 0⟩
        [("r1").toList, ("r1").toList, ("r2").toList]).length
      ≤ (dedupFirst [("r1").toList, ("r1").toList, ("r2").toList]).length :=
  ⟨by decide,
    (resolver_properties
        ⟨[recW, ⟨("r2").toList, ("b@x.com").toList, none, false, 1⟩], [], [], 0⟩
        [("r1").toList, ("r1").toList, ("r2").toList]).2.2 (by decide)⟩

/-- C5: on a valid JSON send request whose resolved active-recipient set
is empty, the handler responds 400 "No active recipients selected." and
the store is unchanged: no campaign and no delivery row is created. -/
theorem handler_no_active_recipients (env : Env) (db : Db) (raw : RawInput)
    (payload : SendPayload)
    (hp : sendSchemaParse (jsonSchemaInput raw) = some payload)
    (hempty : resolveRecipients db payload.recipientIds = []) :
    handler env db (.json (.ok raw)) = (.badRequest noActiveMsg, db, []) := by
  simp only [handler, parseSendRequest, hp]
  rw [hempty]
  simp

/-- Witness for C5 at a concrete request and an empty store. -/
theorem handler_no_active_recipients_witness :
    sendSchemaParse (jsonSchemaInput rawW) = some payloadW ∧
    resolveRecipients dbEmptyW payloadW.recipientIds = [] ∧
    handler envOkW dbEmptyW (.json (.ok rawW)) = (.badRequest noActiveMsg, dbEmptyW, []) :=
  ⟨by decide, by decide,
    handler_no_active_recipients envOkW dbEmptyW rawW payloadW (by decide) (by decide)⟩

section ValidationLemmas

theorem handler_json_invalid (env : Env) (db : Db) (raw : RawInput)
    (h : sendSchemaParse (jsonSchemaInput raw) = none) :
    handler env db (.json (.ok raw)) = (.badRequest invalidMsg, db, []) := by
  simp only [handler, parseSendRequest, h]

theorem sendSchemaParse_blank_subject (r : RawSchemaInput) (s : Str)
    (hs : r.subject = some s) (hb : jsTrim s = []) : sendSchemaParse r = none := by
  unfold sendSchemaParse
  rw [hs]
  cases hbt : r.bodyText with
  | none => rfl
  | some b =>
    cases hri : r.recipientIds with
    | none => rfl
    | some ids =>
      show (if validPayload (jsTrim s) (jsTrim b) r.bodyHtml ids = true then
          some (⟨jsTrim s, jsTrim b, r.bodyHtml, ids⟩ : SendPayload)
        else none) = none
      rw [hb]
      have hv : validPayload [] (jsTrim b) r.bodyHtml ids = false := by
        unfold validPayload
        simp
      rw [hv]
      rfl

theorem sendSchemaParse_blank_body (r : RawSchemaInput) (b : Str)
    (hbt : r.bodyText = some b) (hb : jsTrim b = []) : sendSchemaParse r = none := by
  unfold sendSchemaParse
  rw [hbt]
  cases hs : r.subject with
  | none => rfl
  | some s =>
    cases hri : r.recipientIds with
    | none => rfl
    | some ids =>
      show (if validPayload (jsTrim s) (jsTrim b) r.bodyHtml ids = true then
          some (⟨jsTrim s, jsTrim b, r.bodyHtml, ids⟩ : SendPayload)
        else none) = none
      rw [hb]
      have hv : validPayload (jsTrim s) [] r.bodyHtml ids = false := by
        unfold validPayload
        simp
      rw [hv]
      rfl

theorem sendSchemaParse_empty_ids (r : RawSchemaInput)
    (hri : r.recipientIds = some []) : sendSchemaParse r = none := by
  unfold sendSchemaParse
  rw [hri]
  cases hs : r.subject with
  | none => rfl
  | some s =>
    cases hbt : r.bodyText with
    | none => rfl
    | some b =>
      show (if validPayload (jsTrim s) (jsTrim b) r.bodyHtml [] = true then
          some (⟨jsTrim s, jsTrim b, r.bodyHtml, []⟩ : SendPayload)
        else none) = none
      have hv : validPayload (jsTrim s) (jsTrim b) r.bodyHtml [] = false := by
        unfold validPayload
        simp
      rw [hv]
      rfl

theorem sendSchemaParse_empty_id_entry (r : RawSchemaInput) (ids : List Str)
    (hri : r.recipientIds = some ids) (hmem : [] ∈ ids) : sendSchemaParse r = none := by
  unfold sendSchemaParse
  rw [hri]
  cases hs : r.subject with
  | none => rfl
  | some s =>
    cases hbt : r.bodyText with
    | none => rfl
    | some b =>
      have hall : ids.all (fun i => decide (1 ≤ i.length)) = false := by
        cases hcase : ids.all (fun i => decide (1 ≤ i.length)) with
        | false => rfl
        | true =>
          exfalso
          have := List.all_eq_true.mp hcase [] hmem
          simp at this
      show (if validPayload (jsTrim s) (jsTrim b) r.bodyHtml ids = true then
          some (⟨jsTrim s, jsTrim b, r.bodyHtml, ids⟩ : SendPayload)
        else none) = none
      have hv : validPayload (jsTrim s) (jsTrim b) r.bodyHtml ids = false := by
        unfold validPayload
        rw [hall]
        simp
      rw [hv]
      rfl

end ValidationLemmas

/-- C6: request validation rejects — with a 400 response and no change
to the store — every request whose subject or body text is empty or
whitespace-only after trimming; it accepts inputs of length exactly 300
(subject), 20000 (bodyText) and 120000 (bodyHtml) and rejects lengths
301, 20001 and 120001; and `recipientIds` must be a non-empty array of
non-empty strings. -/
theorem sendSchema_validation_boundaries :
    (∀ (env : Env) (db : Db) (raw : RawInput) (s : Str), raw.subject = some s →
      jsTrim s = [] →
      handler env db (.json (.ok raw)) = (.badRequest invalidMsg, db, [])) ∧
    (∀ (env : Env) (db : Db) (raw : RawInput) (b : Str),
      (jsonSchemaInput raw).bodyText = some b → jsTrim b = [] →
      handler env db (.json (.ok raw)) = (.badRequest invalidMsg, db, [])) ∧
    ((sendSchemaParse ⟨some (List.replicate 300 'a'), some (List.replicate 20000 'b'),
        some (List.replicate 120000 'c'), some [("x").toList]⟩).isSome = true) ∧
    (sendSchemaParse ⟨some (List.replicate 301 'a'), some (List.replicate 20000 'b'),
        some (List.replicate 120000 'c'), some [("x").toList]⟩ = none) ∧
    (sendSchemaParse ⟨some (List.replicate 300 'a'), some (List.replicate 20001 'b'),
        some (List.replicate 120000 'c'), some [("x").toList]⟩ = none) ∧
    (sendSchemaParse ⟨some (List.replicate 300 'a'), some (List.replicate 20000 'b'),
        some (List.replicate 120001 'c'), some [("x").toList]⟩ = none) ∧
    (∀ r : RawSchemaInput, r.recipientIds = some [] → sendSchemaParse r = none) ∧
    (∀ (r : RawSchemaInput) (ids : List Str), r.recipientIds = some ids → [] ∈ ids →
      sendSchemaParse r = none) := by
  refine ⟨?_, ?_, ?_, ?_, ?_, ?_, ?_, ?_⟩
  · intro env db raw s hs hb
    exact handler_json_invalid env db raw
      (sendSchemaParse_blank_subject (jsonSchemaInput raw) s hs hb)
  · intro env db raw b hbt hb
    exact handler_json_invalid env db raw
      (sendSchemaParse_blank_body (jsonSchemaInput raw) b hbt hb)
  · show (if validPayload (jsTrim (List.replicate 300 'a'))
        (jsTrim (List.replicate 20000 'b')) (some (List.replicate 120000 'c'))
        [("x").toList] then
          some (⟨jsTrim (List.replicate 300 'a'), jsTrim (List.replicate 20000 'b'),
            some (List.replicate 120000 'c'), [("x").toList]⟩ : SendPayload)
        else none).isSome = true
    rw [jsTrim_replicate 300 'a' (by decide), jsTrim_replicate 20000 'b' (by decide)]
    have hv : validPayload (List.replicate 300 'a') (List.replicate 20000 'b')
        (some (List.replicate 120000 'c')) [("x").toList] = true := by
      unfold validPayload
      rw [Option.all_some, List.length_replicate, List.length_replicate,
        List.length_replicate]
      decide
    rw [hv]
    rfl
  · show (if validPayload (jsTrim (List.replicate 301 'a'))
        (jsTrim (List.replicate 20000 'b')) (some (List.replicate 120000 'c'))
        [("x").toList] then
          some (⟨jsTrim (List.replicate 301 'a'), jsTrim (List.replicate 20000 'b'),
            some (List.replicate 120000 'c'), [("x").toList]⟩ : SendPayload)
        else none) = none
    rw [jsTrim_replicate 301 'a' (by decide), jsTrim_replicate 20000 'b' (by decide)]
    have hv : validPayload (List.replicate 301 'a') (List.replicate 20000 'b')
        (some (List.replicate 120000 'c')) [("x").toList] = false := by
      unfold validPayload
      rw [Option.all_some, List.length_replicate, List.length_replicate,
        List.length_replicate]
      decide
    rw [hv]
    rfl
  · show (if validPayload (jsTrim (List.replicate 300 'a'))
        (jsTrim (List.replicate 20001 'b')) (some (List.replicate 120000 'c'))
        [("x").toList] then
          some (⟨jsTrim (List.replicate 300 'a'), jsTrim (List.replicate 20001 'b'),
            some (List.replicate 120000 'c'), [("x").toList]⟩ : SendPayload)
        else none) = none
    rw [jsTrim_replicate 300 'a' (by decide), jsTrim_replicate 20001 'b' (by decide)]
    have hv : validPayload (List.replicate 300 'a') (List.replicate 20001 'b')
        (some (List.replicate 120000 'c')) [("x").toList] = false := by
      unfold validPayload
      rw [Option.all_some, List.length_replicate, List.length_replicate,
        List.length_replicate]
      decide
    rw [hv]
    rfl
  · show (if validPayload (jsTrim (List.replicate 300 'a'))
        (jsTrim (List.replicate 20000 'b')) (some (List.replicate 120001 'c'))
        [("x").toList] then
          some (⟨jsTrim (List.replicate 300 'a'), jsTrim (List.replicate 20000 'b'),
            some (List.replicate 120001 'c'), [("x").toList]⟩ : SendPayload)
        else none) = none
    rw [jsTrim_replicate 300 'a' (by decide), jsTrim_replicate 20000 'b' (by decide)]
    have hv : validPayload (List.replicate 300 'a') (List.replicate 20000 'b')
        (some (List.replicate 120001 'c')) [("x").toList] = false := by
      unfold validPayload
      rw [Option.all_some, List.length_replicate, List.length_replicate,
        List.length_replicate]
      decide
    rw [hv]
    rfl
  · exact fun r h => sendSchemaParse_empty_ids r h
  · exact fun r ids h hm => sendSchemaParse_empty_id_entry r ids h hm

/-- Witness for C6: a whitespace-only subject is rejected with 400 and
an unchanged store; an empty recipient list is rejected by the schema. -/
theorem sendSchema_validation_witness :
    handler envOkW dbW
        (.json (.ok ⟨some ((" ").toList), some (("Body").toList), none, none,
          some [("r1").toList]⟩))
      = (.badRequest invalidMsg, dbW, []) ∧
    sendSchemaParse ⟨some (("Hi").toList), some (("Body").toList), none, some []⟩ = none :=
  ⟨sendSchema_validation_boundaries.1 envOkW dbW
      ⟨some ((" ").toList), some (("Body").toList), none, none, some [("r1").toList]⟩
      ((" ").toList) rfl (by decide),
    sendSchema_validation_boundaries.2.2.2.2.2.2.1
      ⟨some (("Hi").toList), some (("Body").toList), none, some []⟩ rfl⟩

section AttachmentLemmas

/-- The running-total check fails exactly when the total byte size
overflows the cap (given it had not overflowed before the loop). -/
theorem attachLoop_overflow : ∀ (files : List TempFile) (total : Nat),
    total ≤ MAX_ATTACHMENT_TOTAL_BYTES →
    MAX_ATTACHMENT_TOTAL_BYTES < total + (files.map fun f => f.content.length).sum →
    attachLoop files total = .error tooLargeMsg := by
  intro files
  induction files with
  | nil =>
    intro total h1 h2
    simp at h2
    omega
  | cons f fs ih =>
    intro total h1 h2
    simp only [List.map_cons, List.sum_cons] at h2
    show (if MAX_ATTACHMENT_TOTAL_BYTES < total + f.content.length then
        Except.error tooLargeMsg
      else
        match attachLoop fs (total + f.content.length) with
        | .error e => .error e
        | .ok rest =>
          .ok (⟨(match f.originalFilename with
                  | some s => if s = [] then ("attachment").toList else s
                  | none => ("attachment").toList),
                f.content,
                (match f.mimetype with
                  | some m => if m = [] then none else some m
                  | none => none)⟩ :: rest)) = Except.error tooLargeMsg
    by_cases hc : MAX_ATTACHMENT_TOTAL_BYTES < total + f.content.length
    · rw [if_pos hc]
    · rw [if_neg hc]
      rw [ih (total + f.content.length) (by omega) (by omega)]

end AttachmentLemmas

def tempFileW : TempFile := ⟨("tmp1").toList, some (("a.txt").toList), none, [1, 2, 3]⟩

/-- C7 counterexample: when the multipart parser itself rejects the
request (for example a file over the per-file cap, or a malformed body)
after having written a temp file, the handler returns without deleting
it — `deleteTempFiles` runs in a `finally` that is only reached once
`parseMultipartBody` has resolved, so not every exit path cleans up. -/
theorem multipart_parser_failure_leaks_temp_files :
    (handler envOkW dbW
        (.multipart (.error ⟨("parse failed").toList, [tempFileW]⟩))).2.2 ≠ [] := by
  decide

/-- C7 (amended): the attachment collector fails with its descriptive
error — before any send attempt and with the store unchanged — when more
than 10 files are uploaded, or when the total file bytes exceed 20MB;
and on every exit path reached after the multipart parser has
successfully produced its fields and files, every temporary file is
deleted before the handler returns.  Temp files written before a
parser-level failure are, however, not deleted (see the counterexample). -/
theorem multipart_caps_and_cleanup :
    (∀ (env : Env) (db : Db) (form : MultipartForm) (p : SendPayload),
      ridsThrows form.recipientIdsField = false →
      sendSchemaParse (formSchemaInput form) = some p →
      MAX_ATTACHMENT_COUNT < form.files.length →
      handler env db (.multipart (.ok form)) = (.badRequest tooManyMsg, db, [])) ∧
    (∀ (env : Env) (db : Db) (form : MultipartForm) (p : SendPayload),
      ridsThrows form.recipientIdsField = false →
      sendSchemaParse (formSchemaInput form) = some p →
      form.files.length ≤ MAX_ATTACHMENT_COUNT →
      MAX_ATTACHMENT_TOTAL_BYTES < (form.files.map fun f => f.content.length).sum →
      handler env db (.multipart (.ok form)) = (.badRequest tooLargeMsg, db, [])) ∧
    (∀ (env : Env) (db : Db) (form : MultipartForm),
      (handler env db (.multipart (.ok form))).2.2 = []) := by
  have hinner : ∀ (form : MultipartForm),
      ridsThrows form.recipientIdsField = false →
      multipartInner form =
        (match sendSchemaParse (formSchemaInput form) with
         | none => .error invalidMsg
         | some p =>
           match buildAttachmentsFromFiles form.files with
           | .error e => .error e
           | .ok atts => .ok ⟨p, atts⟩) := by
    intro form hrt
    unfold multipartInner
    cases hf : form.recipientIdsField with
    | none => rfl
    | some v =>
      cases v with
      | throws m => rw [hf] at hrt; simp [ridsThrows] at hrt
      | arr ids => rfl
      | nonArray => rfl
  refine ⟨?_, ?_, ?_⟩
  · intro env db form p hrt hp hcount
    have hatt : buildAttachmentsFromFiles form.files = .error tooManyMsg := by
      unfold buildAttachmentsFromFiles
      rw [if_pos hcount]
    simp only [handler, parseSendRequest, hinner form hrt, hp, hatt]
  · intro env db form p hrt hp hcount hbytes
    have hatt : buildAttachmentsFromFiles form.files = .error tooLargeMsg := by
      unfold buildAttachmentsFromFiles
      rw [if_neg (Nat.not_lt.mpr hcount)]
      exact attachLoop_overflow form.files 0 (Nat.zero_le _) (by omega)
    simp only [handler, parseSendRequest, hinner form hrt, hp, hatt]
  · intro env db form
    simp only [handler, parseSendRequest]
    cases hmi : multipartInner form with
    | error e => rfl
    | ok prep =>
      show ((if (resolveRecipients db prep.payload.recipientIds).length = 0 then
          ((Response.badRequest noActiveMsg, db, []) : Response × Db × List TempFile)
        else _) : Response × Db × List TempFile).2.2 = []
      split
      · rfl
      · rfl

def tempFilesW : List TempFile := List.replicate 11 tempFileW

def formW : MultipartForm :=
  ⟨some (("Hi").toList), some (("Body").toList), none,
    some (.arr [("r1").toList]), tempFilesW⟩

/-- Witness for the amended C7: eleven uploaded files with valid fields
are rejected with the "Too many attachments" error, the store unchanged
and no temp file left. -/
theorem multipart_caps_witness :
    ridsThrows formW.recipientIdsField = false ∧
    sendSchemaParse (formSchemaInput formW) = some payloadW ∧
    MAX_ATTACHMENT_COUNT < formW.files.length ∧
    handler envOkW dbW (.multipart (.ok formW)) = (.badRequest tooManyMsg, dbW, []) :=
  ⟨rfl, by decide, by decide,
    multipart_caps_and_cleanup.1 envOkW dbW formW payloadW rfl (by decide) (by decide)⟩

theorem validPayload_bt_ne_nil {st bt : Str} {html : Option Str} {ids : List Str}
    (h : validPayload st bt html ids = true) : bt ≠ [] := by
  intro hbt
  subst hbt
  have hfalse : validPayload st [] html ids = false := by
    unfold validPayload
    simp
  rw [hfalse] at h
  exact Bool.false_ne_true h

/-- Inversion of a successful schema parse whose raw body text is known:
the parsed body text is the trimmed raw body text, and it is non-empty. -/
theorem sendSchemaParse_bodyText {r : RawSchemaInput} {payload : SendPayload} {b : Str}
    (hb : r.bodyText = some b)
    (hp : sendSchemaParse r = some payload) :
    payload.bodyText = jsTrim b ∧ payload.bodyText ≠ [] := by
  unfold sendSchemaParse at hp
  rw [hb] at hp
  cases hs : r.subject with
  | none => rw [hs] at hp; exact absurd hp (by simp)
  | some s =>
    rw [hs] at hp
    cases hri : r.recipientIds with
    | none => rw [hri] at hp; exact absurd hp (by simp)
    | some ids =>
      rw [hri] at hp
      have hp2 : (if validPayload (jsTrim s) (jsTrim b) r.bodyHtml ids = true then
          some (⟨jsTrim s, jsTrim b, r.bodyHtml, ids⟩ : SendPayload)
        else none) = some payload := hp
      by_cases hv : validPayload (jsTrim s) (jsTrim b) r.bodyHtml ids = true
      · rw [if_pos hv] at hp2
        have hpe : payload = ⟨jsTrim s, jsTrim b, r.bodyHtml, ids⟩ := by
          injection hp2 with h
          exact h.symm
        subst hpe
        exact ⟨rfl, validPayload_bt_ne_nil hv⟩
      · rw [if_neg hv] at hp2
        exact absurd hp2 (by simp)

/-- C9 counterexample: an accepted request whose submitted plain-text
body carries surrounding whitespace stores the trimmed text, not the
submitted text — the claim's "otherwise it is the submitted plain text"
fails, and its blank-body branch can never apply because validation
rejects blank bodies. -/
theorem stored_body_not_submitted_counterexample :
    ((sendSchemaParse (jsonSchemaInput
        ⟨some (("Hi").toList), some (("  hi  ").toList), none, none,
          some [("r1").toList]⟩)).isSome = true) ∧
    jsTrim (("  hi  ").toList) ≠ [] ∧
    ((handler envOkW dbW (.json (.ok
        ⟨some (("Hi").toList), some (("  hi  ").toList), none, none,
          some [("r1").toList]⟩))).2.1.campaigns.map Campaign.body
      = [("hi").toList]) ∧
    ("hi").toList ≠ ("  hi  ").toList := by
  decide

/-- C9 (amended): for every accepted send request, the submitted plain
text is non-blank after trimming (blank bodies are rejected by
validation, so the sanitized-HTML-derived fallback never applies), and
the plain-text body stored on the campaign and used for templating is
the submitted plain text trimmed of surrounding whitespace. -/
theorem stored_body_is_trimmed_submitted (env : Env) (db : Db) (raw : RawInput)
    (payload : SendPayload) (b : Str)
    (hb : (jsonSchemaInput raw).bodyText = some b)
    (hp : sendSchemaParse (jsonSchemaInput raw) = some payload)
    (hne : resolveRecipients db payload.recipientIds ≠ []) :
    payload.bodyText = jsTrim b ∧
    payload.bodyText ≠ [] ∧
    (handler env db (.json (.ok raw))).2.1.campaigns
      = db.campaigns ++ [⟨db.nextId, payload.subject, payload.bodyText⟩] := by
  obtain ⟨hbt, hbne⟩ := sendSchemaParse_bodyText hb hp
  refine ⟨hbt, hbne, ?_⟩
  rw [handler_json_ok env db raw payload hp hne]
  have hprep : preparedText env payload = payload.bodyText := by
    unfold preparedText orElseStr
    rw [hbt, jsTrim_idem]
    rw [if_neg (hbt ▸ hbne)]
  rw [hprep]

def payload9 : SendPayload := ⟨("Hi").toList, ("hi").toList, none, [("r1").toList]⟩

/-- Witness for the amended C9 at a concrete whitespace-padded body. -/
theorem stored_body_witness :
    (jsonSchemaInput ⟨some (("Hi").toList), some (("  hi  ").toList), none, none,
        some [("r1").toList]⟩).bodyText = some (("  hi  ").toList) ∧
    sendSchemaParse (jsonSchemaInput ⟨some (("Hi").toList), some (("  hi  ").toList),
        none, none, some [("r1").toList]⟩) = some payload9 ∧
    payload9.bodyText = jsTrim (("  hi  ").toList) ∧
    payload9.bodyText ≠ [] ∧
    (handler envOkW dbW (.json (.ok ⟨some (("Hi").toList), some (("  hi  ").toList),
        none, none, some [("r1").toList]⟩))).2.1.campaigns
      = dbW.campaigns ++ [⟨dbW.nextId, payload9.subject, payload9.bodyText⟩] :=
  ⟨rfl, by decide,
    (stored_body_is_trimmed_submitted envOkW dbW
      ⟨some (("Hi").toList), some (("  hi  ").toList), none, none, some [("r1").toList]⟩
      payload9 (("  hi  ").toList) rfl (by decide) (by decide)).1,
    (stored_body_is_trimmed_submitted envOkW dbW
      ⟨some (("Hi").toList), some (("  hi  ").toList), none, none, some [("r1").toList]⟩
      payload9 (("  hi  ").toList) rfl (by decide) (by decide)).2.1,
    (stored_body_is_trimmed_submitted envOkW dbW
      ⟨some (("Hi").toList), some (("  hi  ").toList), none, none, some [("r1").toList]⟩
      payload9 (("  hi  ").toList) rfl (by decide) (by decide)).2.2⟩

end BulkEmail
